import Mathlib

/-!
Verification development for the gold-history repository: two scheduled
batch scripts (`update_history_json.py` and `firestore_daily_sync.py`)
that fetch gold/silver spot prices, compute a New York market date, and
persist daily records keyed by date.

The scripts are shallowly embedded here.  Parsed JSON values are modelled
by the inductive `JVal` (Python floats are idealised as rationals, the
standard idealisation once no claim depends on binary rounding), Python
dicts by insertion-ordered association lists, and each script's
post-I/O logic by pure functions on these.  Clock reads
(`datetime.now`) become explicit date/weekday/hour parameters, and HTTP
responses become explicit payload parameters.
-/

/-- A parsed JSON value, as produced by Python's `json.loads`.
Numbers (int or float) are modelled as rationals; objects are
insertion-ordered association lists with distinct keys (as `json.loads`
produces, last duplicate winning during decode). -/
inductive JVal where
  | null : JVal
  | bool : Bool → JVal
  | num : ℚ → JVal
  | str : String → JVal
  | arr : List JVal → JVal
  | obj : List (String × JVal) → JVal

mutual

/-- Decidable equality on JSON values (by structural recursion through
the nesting). -/
def JVal.decEq : (a b : JVal) → Decidable (a = b)
  | .null, .null => isTrue rfl
  | .null, .bool _ => isFalse (fun h => JVal.noConfusion h)
  | .null, .num _ => isFalse (fun h => JVal.noConfusion h)
  | .null, .str _ => isFalse (fun h => JVal.noConfusion h)
  | .null, .arr _ => isFalse (fun h => JVal.noConfusion h)
  | .null, .obj _ => isFalse (fun h => JVal.noConfusion h)
  | .bool _, .null => isFalse (fun h => JVal.noConfusion h)
  | .bool a, .bool b =>
    if h : a = b then isTrue (by rw [h]) else isFalse (fun he => h (by injection he))
  | .bool _, .num _ => isFalse (fun h => JVal.noConfusion h)
  | .bool _, .str _ => isFalse (fun h => JVal.noConfusion h)
  | .bool _, .arr _ => isFalse (fun h => JVal.noConfusion h)
  | .bool _, .obj _ => isFalse (fun h => JVal.noConfusion h)
  | .num _, .null => isFalse (fun h => JVal.noConfusion h)
  | .num _, .bool _ => isFalse (fun h => JVal.noConfusion h)
  | .num a, .num b =>
    if h : a = b then isTrue (by rw [h]) else isFalse (fun he => h (by injection he))
  | .num _, .str _ => isFalse (fun h => JVal.noConfusion h)
  | .num _, .arr _ => isFalse (fun h => JVal.noConfusion h)
  | .num _, .obj _ => isFalse (fun h => JVal.noConfusion h)
  | .str _, .null => isFalse (fun h => JVal.noConfusion h)
  | .str _, .bool _ => isFalse (fun h => JVal.noConfusion h)
  | .str _, .num _ => isFalse (fun h => JVal.noConfusion h)
  | .str a, .str b =>
    if h : a = b then isTrue (by rw [h]) else isFalse (fun he => h (by injection he))
  | .str _, .arr _ => isFalse (fun h => JVal.noConfusion h)
  | .str _, .obj _ => isFalse (fun h => JVal.noConfusion h)
  | .arr _, .null => isFalse (fun h => JVal.noConfusion h)
  | .arr _, .bool _ => isFalse (fun h => JVal.noConfusion h)
  | .arr _, .num _ => isFalse (fun h => JVal.noConfusion h)
  | .arr _, .str _ => isFalse (fun h => JVal.noConfusion h)
  | .arr a, .arr b =>
    match decEqArr a b with
    | isTrue h => isTrue (by rw [h])
    | isFalse h => isFalse (fun he => h (by injection he))
  | .arr _, .obj _ => isFalse (fun h => JVal.noConfusion h)
  | .obj _, .null => isFalse (fun h => JVal.noConfusion h)
  | .obj _, .bool _ => isFalse (fun h => JVal.noConfusion h)
  | .obj _, .num _ => isFalse (fun h => JVal.noConfusion h)
  | .obj _, .str _ => isFalse (fun h => JVal.noConfusion h)
  | .obj _, .arr _ => isFalse (fun h => JVal.noConfusion h)
  | .obj a, .obj b =>
    match decEqObj a b with
    | isTrue h => isTrue (by rw [h])
    | isFalse h => isFalse (fun he => h (by injection he))

def decEqArr : (a b : List JVal) → Decidable (a = b)
  | [], [] => isTrue rfl
  | [], _ :: _ => isFalse (fun h => List.noConfusion h)
  | _ :: _, [] => isFalse (fun h => List.noConfusion h)
  | x :: xs, y :: ys =>
    match JVal.decEq x y with
    | isFalse h => isFalse (fun he => h (by injection he))
    | isTrue h1 =>
      match decEqArr xs ys with
      | isTrue h2 => isTrue (by rw [h1, h2])
      | isFalse h => isFalse (fun he => h (by injection he))

def decEqObj : (a b : List (String × JVal)) → Decidable (a = b)
  | [], [] => isTrue rfl
  | [], _ :: _ => isFalse (fun h => List.noConfusion h)
  | _ :: _, [] => isFalse (fun h => List.noConfusion h)
  | (k1, v1) :: xs, (k2, v2) :: ys =>
    if hk : k1 = k2 then
      match JVal.decEq v1 v2 with
      | isFalse h => isFalse (fun he => h (by
          have h2 := (List.cons.injEq _ _ _ _).mp he
          exact (Prod.mk.injEq _ _ _ _).mp h2.1 |>.2))
      | isTrue h1 =>
        match decEqObj xs ys with
        | isTrue h2 => isTrue (by rw [hk, h1, h2])
        | isFalse h => isFalse (fun he => h (by
            exact ((List.cons.injEq _ _ _ _).mp he).2))
    else isFalse (fun he => hk (by
      have h2 := (List.cons.injEq _ _ _ _).mp he
      exact (Prod.mk.injEq _ _ _ _).mp h2.1 |>.1))

end

instance : DecidableEq JVal := JVal.decEq

/-- Fold a list of decimal digit characters into the number they denote. -/
def digitsVal (cs : List Char) : ℕ :=
  cs.foldl (fun acc c => 10 * acc + (c.toNat - 48)) 0

/-- Python `str.strip()` / the whitespace stripping of `float(s)`:
drop leading and trailing whitespace (structural implementation,
equivalent to `String.trim` on ASCII input). -/
def pyStrip (s : String) : String :=
  String.mk (((s.toList.dropWhile Char.isWhitespace).reverse.dropWhile
    Char.isWhitespace).reverse)

/-- Python `float(s)` on a string, restricted to finite decimal literals:
optional sign, digits with an optional decimal point (at least one digit
overall), and an optional exponent, surrounded by optional whitespace.
(`inf`, `nan`, underscores and hex floats are outside the model; no claim
exercises them.)  Returns `none` where Python raises `ValueError`. -/
def pyFloatOfStr (s : String) : Option ℚ :=
  let cs0 := (pyStrip s).toList
  let signedMant : Bool × List Char :=
    match cs0 with
    | '-' :: t => (true, t)
    | '+' :: t => (false, t)
    | _ => (false, cs0)
  let neg := signedMant.1
  let ip := signedMant.2.takeWhile Char.isDigit
  let r1 := signedMant.2.dropWhile Char.isDigit
  let fpr : List Char × List Char :=
    match r1 with
    | '.' :: t => (t.takeWhile Char.isDigit, t.dropWhile Char.isDigit)
    | _ => ([], r1)
  let fp := fpr.1
  let r2 := fpr.2
  if ip.isEmpty && fp.isEmpty then none
  else
    let mant : ℚ := (digitsVal ip * 10 ^ fp.length + digitsVal fp : ℚ) / 10 ^ fp.length
    let mant := if neg then -mant else mant
    match r2 with
    | [] => some mant
    | 'e' :: t =>
      match t with
      | '-' :: d => if d ≠ [] && d.all Char.isDigit then some (mant / 10 ^ digitsVal d) else none
      | '+' :: d => if d ≠ [] && d.all Char.isDigit then some (mant * 10 ^ digitsVal d) else none
      | d => if d ≠ [] && d.all Char.isDigit then some (mant * 10 ^ digitsVal d) else none
    | 'E' :: t =>
      match t with
      | '-' :: d => if d ≠ [] && d.all Char.isDigit then some (mant / 10 ^ digitsVal d) else none
      | '+' :: d => if d ≠ [] && d.all Char.isDigit then some (mant * 10 ^ digitsVal d) else none
      | d => if d ≠ [] && d.all Char.isDigit then some (mant * 10 ^ digitsVal d) else none
    | _ => none

/-- Python `float(value)` on a parsed JSON value.  `none` models raising
`TypeError` or `ValueError` (both are caught and skipped by
`_extract_number`); note `float(None)` raises `TypeError`, so `null`
maps to `none` just as the explicit `is None` skip in the source does. -/
def pyFloat : JVal → Option ℚ
  | JVal.null => none
  | JVal.bool b => some (if b then 1 else 0)
  | JVal.num q => some q
  | JVal.str s => pyFloatOfStr s
  | JVal.arr _ => none
  | JVal.obj _ => none

/-- Model of `dict.get(key)` on an association-list dict: the value at the first
matching key, `none` when absent. -/
def dget {α : Type} (k : String) : List (String × α) → Option α
  | [] => none
  | (k2, v) :: t => if k2 = k then some v else dget k t

/-- Model of `_extract_number(data, keys)` (identical in both scripts): scan the
candidate keys in order and return the first value that converts to a
float; a missing key, a `None` value, or a failing conversion moves on to
the next key. -/
def extractNumber (fields : List (String × JVal)) : List String → Option ℚ
  | [] => none
  | k :: ks =>
    match dget k fields with
    | none => extractNumber fields ks
    | some v =>
      match pyFloat v with
      | some q => some q
      | none => extractNumber fields ks

/-- The candidate key list of `fetch_spot_price` in both scripts. -/
def spotPriceKeys : List String := ["price", "xau", "xag", "gold", "silver", "value"]

/-- The post-HTTP logic of `fetch_spot_price`: given the decoded JSON
object's fields, return the extracted price or raise `ValueError`.
(The HTTP call, and the dynamic list of response keys interpolated into
the Python message, are outside the model.) -/
def fetchSpotPriceOf (fields : List (String × JVal)) : Except String ℚ :=
  match extractNumber fields spotPriceKeys with
  | some price => Except.ok price
  | none => Except.error "Could not parse price"

/-- The gate of `get_market_snapshot_info`, as a function of the New York
weekday (`Mon=0 .. Sun=6`) and hour (the source reads only `ny_now.weekday()`
and `ny_now.hour`; minutes are never consulted).  `true` means
`should_sync` (market open), `false` means skip. -/
def shouldSync (weekday hour : ℕ) : Bool :=
  if (weekday == 4 && hour ≥ 17) || weekday == 5 || (weekday == 6 && hour < 18) then
    false
  else if (weekday == 0 || weekday == 1 || weekday == 2 || weekday == 3) && hour == 17 then
    false
  else
    true

/-- Python `str(value)` as applied to `row.get("date", "")` in
`update_history_json.py`.  Exact on strings (the only date representation
the claims exercise); `None`/booleans render as Python does; numeric and
composite renderings are schematic (Python would render the decoded
float/container), which no theorem depends on — store rows whose `date`
is not a string are excluded by `storeDatesOk` below because Python's
`sorted` raises `TypeError` on their keys. -/
def pyStr : JVal → String
  | JVal.null => "None"
  | JVal.bool b => if b then "True" else "False"
  | JVal.num q => toString q.num ++ (if q.den = 1 then "" else "/" ++ toString q.den)
  | JVal.str s => s
  | JVal.arr _ => "[\x2e\x2e\x2e]"
  | JVal.obj _ => "\x7b\x2e\x2e\x2e\x7d"

/-- The date key under which `main` of `update_history_json.py` indexes a
store row: rows that are not dicts are skipped (`none`), otherwise
`str(row.get("date", "")).strip()`, skipped when empty. -/
def rowKey (r : JVal) : Option String :=
  match r with
  | JVal.obj f =>
    let d := pyStrip (pyStr ((dget "date" f).getD (JVal.str "")))
    if d = "" then none else some d
  | _ => none

/-- Python dict assignment `m[k] = v` on an insertion-ordered association
list with distinct keys: replace in place when the key exists, else
append. -/
def dinsert {α : Type} : List (String × α) → String → α → List (String × α)
  | [], k, v => [(k, v)]
  | (k2, v2) :: t, k, v => if k2 = k then (k2, v) :: t else (k2, v2) :: dinsert t k v

/-- One iteration of the `for row in data` indexing loop of `main`. -/
def byDateStep (m : List (String × JVal)) (row : JVal) : List (String × JVal) :=
  match rowKey row with
  | some d => dinsert m d row
  | none => m

/-- The `by_date` dict built by `main` from the loaded store. -/
def byDate (data : List JVal) : List (String × JVal) :=
  data.foldl byDateStep []

/-- Round-half-to-even to an integer, Python's `round` semantics
(prices idealised as rationals). -/
def pyRoundHalfEven (x : ℚ) : ℤ :=
  if x - Int.floor x < 1 / 2 then Int.floor x
  else if x - Int.floor x > 1 / 2 then Int.floor x + 1
  else if Even (Int.floor x) then Int.floor x else Int.floor x + 1

/-- Python `round(x, 4)`: round half to even at the fourth decimal. -/
def pyRound4 (x : ℚ) : ℚ :=
  (pyRoundHalfEven (x * 10000) : ℚ) / 10000

/-- The record `main` inserts under `by_date[quote_date]`. -/
def todayRecord (qd : String) (ts : ℤ) (g s : ℚ) : JVal :=
  JVal.obj [("date", JVal.str qd), ("timestamp", JVal.num (ts : ℚ)),
    ("gold_oz", JVal.num (pyRound4 g)), ("silver_oz", JVal.num (pyRound4 s)),
    ("source", JVal.str "daily-sync")]

/-- The sort key `lambda r: r.get("date", "")` of `main`'s final
`sorted` call, on rows whose `date` field is a string or absent (other
rows make Python's `sorted` raise `TypeError`; see `storeDatesOk`). -/
def sortKeyStr (r : JVal) : String :=
  match r with
  | JVal.obj f =>
    match dget "date" f with
    | some (JVal.str s) => s
    | _ => ""
  | _ => ""

/-- The comparison `sorted` uses under that key. -/
def rowLe (a b : JVal) : Bool :=
  decide (sortKeyStr a ≤ sortKeyStr b)

/-- A store row on which the final `sorted` call of `main` is
well-defined: not a dict (such rows are dropped before sorting), or a
dict whose `date` is absent or a string.  A dict row with a present
non-string `date` either is dropped (key stripping to empty never
happens for non-strings here) or reaches `sorted`, where Python raises
`TypeError` comparing its raw date with the string dates; theorems about
the written output therefore assume `storeDatesOk`. -/
def rowDateOk (r : JVal) : Bool :=
  match r with
  | JVal.obj f =>
    match dget "date" f with
    | some (JVal.str _) => true
    | some _ => false
    | none => true
  | _ => true

/-- All rows of a store are sortable (see `rowDateOk`). -/
def storeDatesOk (data : List JVal) : Bool :=
  data.all rowDateOk

/-- The merge performed by `main` of `update_history_json.py` after the
store is loaded: index by date (last write wins), insert/replace today's
record, and sort the dict's values by their raw `date` field. -/
def mergeHistory (data : List JVal) (qd : String) (ts : ℤ) (g s : ℚ) : List JVal :=
  ((dinsert (byDate data) qd (todayRecord qd ts g s)).map Prod.snd).mergeSort rowLe

/-- Loading step of `main`: absent file starts empty; a present file
whose JSON is not a list raises `ValueError`. -/
def loadStore : Option JVal → Except String (List JVal)
  | none => Except.ok []
  | some (JVal.arr rows) => Except.ok rows
  | some _ => Except.error "history.json must contain a JSON array"

/-- Gregorian leap year. -/
def isLeapYear (y : ℕ) : Bool :=
  (y % 4 == 0 && y % 100 != 0) || y % 400 == 0

/-- Days from 1970-01-01 to the civil date `y-m-d` (Howard Hinnant's
`days_from_civil`), the day count underlying Python's
`datetime(..., tzinfo=UTC).timestamp()`. -/
def daysFromCivil (y m d : ℕ) : ℤ :=
  let yy : ℤ := (y : ℤ) - (if m ≤ 2 then 1 else 0)
  let era : ℤ := Int.fdiv yy 400
  let yoe : ℤ := yy - era * 400
  let mp : ℤ := ((m : ℤ) + 9) % 12
  let doy : ℤ := (153 * mp + 2) / 5 + (d : ℤ) - 1
  let doe : ℤ := yoe * 365 + yoe / 4 - yoe / 100 + doy
  era * 146097 + doe - 719468

/-- Epoch seconds of UTC midnight of `y-m-d`:
`datetime.strptime(qd, "%Y-%m-%d").replace(tzinfo=UTC).timestamp()`. -/
def epochSecs (y m d : ℕ) : ℤ :=
  daysFromCivil y m d * 86400

/-- The `ts` computed by `main` of `update_history_json.py`:
`int(timestamp() * 1000)` (exact here: the float product of a day-sized
integer by 1000 is exactly representable). -/
def pyTimestampMs (y m d : ℕ) : ℤ :=
  epochSecs y m d * 1000

/-- Zero-padded two-digit rendering (strftime `%m` / `%d`). -/
def pad2 (n : ℕ) : String :=
  if n < 10 then "0" ++ toString n else toString n

/-- Zero-padded four-digit rendering (strftime `%Y`, years 1..9999). -/
def pad4 (n : ℕ) : String :=
  if n < 10 then "000" ++ toString n
  else if n < 100 then "00" ++ toString n
  else if n < 1000 then "0" ++ toString n
  else toString n

/-- Rendering of `ny_now.strftime("%Y-%m-%d")` for the date `y-m-d`. -/
def fmtDate (y m d : ℕ) : String :=
  pad4 y ++ "-" ++ pad2 m ++ "-" ++ pad2 d

/-- Model of `main` of `update_history_json.py`, with the I/O boundary made
explicit: the New York date `y-m-d` stands for `get_market_date_ny()`
(the `strftime`/`strptime` round trip is the identity on it), the two
decoded HTTP response objects are parameters, and the store file's
content is `none` when absent.  Returns the list written back, or the
error the run dies with. -/
def historyMain (y m d : ℕ) (goldResp silverResp : List (String × JVal))
    (stored : Option JVal) : Except String (List JVal) := do
  let gold ← fetchSpotPriceOf goldResp
  let silver ← fetchSpotPriceOf silverResp
  let data ← loadStore stored
  pure (mergeHistory data (fmtDate y m d) (pyTimestampMs y m d) gold silver)

/-- Days in a Gregorian month (used to model `strptime` date validation). -/
def daysInMonth (y m : ℕ) : ℕ :=
  if m = 2 then (if isLeapYear y then 29 else 28)
  else if m = 4 ∨ m = 6 ∨ m = 9 ∨ m = 11 then 30
  else 31

/-- Split a character list on `-` (the separator semantics of Python's
`str.split("-")`). -/
def splitOnDash : List Char → List (List Char)
  | [] => [[]]
  | c :: t =>
    if c = '-' then [] :: splitOnDash t
    else
      match splitOnDash t with
      | g :: gs => (c :: g) :: gs
      | [] => [[c]]

/-- Model of `datetime.strptime(s, "%Y-%m-%d")`: three dash-separated digit groups
(year up to four digits, month and day up to two), with the month/day
ranges validated against the calendar; `none` models `ValueError`. -/
def parseDateYMD (s : String) : Option (ℕ × ℕ × ℕ) :=
  match splitOnDash s.toList with
  | [ys, ms, ds] =>
    if ys ≠ [] && ys.length ≤ 4 && ys.all Char.isDigit
        && ms ≠ [] && ms.length ≤ 2 && ms.all Char.isDigit
        && ds ≠ [] && ds.length ≤ 2 && ds.all Char.isDigit then
      let y := digitsVal ys
      let m := digitsVal ms
      let d := digitsVal ds
      if 1 ≤ m && m ≤ 12 && 1 ≤ d && d ≤ daysInMonth y m then some (y, m, d) else none
    else none
  | _ => none

/-- Python truthiness of a parsed JSON value (`if not quote_date`). -/
def pyTruthy : JVal → Bool
  | JVal.null => false
  | JVal.bool b => b
  | JVal.num q => q ≠ 0
  | JVal.str s => s ≠ ""
  | JVal.arr l => l ≠ []
  | JVal.obj f => f ≠ []

/-- The candidate gold keys of `parse_payload`. -/
def payloadGoldKeys : List String := ["gold_oz", "gold", "xau", "price"]

/-- The candidate silver keys of `parse_payload`. -/
def payloadSilverKeys : List String := ["silver_oz", "silver", "xag"]

/-- The fields of `parse_payload`'s result that the model tracks.  The
Python dict also carries `gold_high`/`gold_low` set to
`firestore.DELETE_FIELD` (instructions to delete those legacy fields),
`source = "daily-sync"`, and `updated_at = firestore.SERVER_TIMESTAMP`
(assigned server-side); under `set(..., merge=True)` the stored document
is therefore exactly the tracked fields plus `source` and a server
timestamp, with the two legacy fields removed. -/
structure PricePayload where
  date : String
  ts : ℤ
  gold_oz : ℚ
  silver_oz : ℚ
deriving DecidableEq

/-- Model of `parse_payload(data)` of `firestore_daily_sync.py` on the decoded
object's fields.  `uy-um-ud` is the current UTC date
(`datetime.now(timezone.utc)`), used only when the payload has no truthy
`date`.  Errors model the uncaught `ValueError`/`TypeError` the run dies
with: missing gold or silver, or a truthy `date` that `strptime` cannot
parse (including a non-string `date`). -/
def parsePayload (uy um ud : ℕ) (fields : List (String × JVal)) : Except String PricePayload :=
  match extractNumber fields payloadGoldKeys, extractNumber fields payloadSilverKeys with
  | some g, some s =>
    let dv := (dget "date" fields).getD JVal.null
    if pyTruthy dv then
      match dv with
      | JVal.str dstr =>
        match parseDateYMD dstr with
        | some ymd => Except.ok ⟨dstr, epochSecs ymd.1 ymd.2.1 ymd.2.2, g, s⟩
        | none => Except.error "ValueError: date does not match format"
      | _ => Except.error "TypeError: strptime argument must be a string"
    else
      Except.ok ⟨fmtDate uy um ud, epochSecs uy um ud, g, s⟩
  | _, _ => Except.error "API payload missing gold/silver values"

/-- A Firestore document as stored by the sync (see `PricePayload` for
the sentinel fields).  `ts` is the stored UTC-midnight datetime,
represented by its epoch seconds. -/
structure FDoc where
  date : String
  ts : ℤ
  gold_oz : ℚ
  silver_oz : ℚ
  source : String
deriving DecidableEq

/-- Build the document `main` upserts. -/
def mkDoc (qd : String) (ts : ℤ) (g s : ℚ) : FDoc :=
  ⟨qd, ts, g, s, "daily-sync"⟩

/-- Model of `fetch_spot_price` on an arbitrary decoded JSON body: a non-object
body makes `data.get` raise `AttributeError`. -/
def fetchSpotPrice : JVal → Except String ℚ
  | JVal.obj fields => fetchSpotPriceOf fields
  | _ => Except.error "AttributeError: response is not a JSON object"

/-- An observable side effect of the sync run: an HTTP `requests.get`,
or a Firestore `document(key).set`. -/
inductive SyncAction where
  | fetch : SyncAction
  | write : String → SyncAction
deriving DecidableEq

/-- Outcome of a run of `main` of `firestore_daily_sync.py`: the effects
performed in order, the lines printed, and the final store (or the error
the run dies with; on an error no further effect happens, so the store
named in `Except.error` runs is the unchanged input store). -/
structure SyncResult where
  actions : List SyncAction
  log : List String
  result : Except String (List (String × FDoc))

/-- Model of `main` of `firestore_daily_sync.py`, with the I/O boundary explicit:
`ny` with `weekday`/`hour` stand for `datetime.now(ZoneInfo("America/New_York"))`
(the source reads exactly its date string, `weekday()` and `hour`), `utc`
for `datetime.now(timezone.utc)` inside `parse_payload`, `apiUrlSet` for
`METALS_API_URL` being set, the three `*Resp` values for the decoded HTTP
bodies, and `store` for the Firestore collection as a dict keyed by
document id.  `set(payload, merge=True)` becomes a keyed insert-or-replace
(see `PricePayload` on the sentinel fields).  Credential checking and
client construction are outside the model. -/
def dbMain (ny : ℕ × ℕ × ℕ) (weekday hour : ℕ) (utc : ℕ × ℕ × ℕ)
    (apiUrlSet : Bool) (combinedResp goldResp silverResp : JVal)
    (collection : String) (store : List (String × FDoc)) : SyncResult :=
  let qd := fmtDate ny.1 ny.2.1 ny.2.2
  let ts := epochSecs ny.1 ny.2.1 ny.2.2
  if shouldSync weekday hour = false then
    ⟨[], ["Market closed/maintenance in NY. Skip sync for " ++ qd ++ "."], Except.ok store⟩
  else if apiUrlSet then
    match combinedResp with
    | JVal.obj fields =>
      match parsePayload utc.1 utc.2.1 utc.2.2 fields with
      | Except.ok p =>
        let doc := mkDoc qd ts p.gold_oz p.silver_oz
        ⟨[SyncAction.fetch, SyncAction.write qd],
          ["Upserted " ++ qd ++ " into " ++ collection],
          Except.ok (dinsert store qd doc)⟩
      | Except.error e => ⟨[SyncAction.fetch], [], Except.error e⟩
    | _ => ⟨[SyncAction.fetch], [], Except.error "AttributeError: payload is not an object"⟩
  else
    match fetchSpotPrice goldResp with
    | Except.error e => ⟨[SyncAction.fetch], [], Except.error e⟩
    | Except.ok g =>
      match fetchSpotPrice silverResp with
      | Except.error e => ⟨[SyncAction.fetch, SyncAction.fetch], [], Except.error e⟩
      | Except.ok s =>
        ⟨[SyncAction.fetch, SyncAction.fetch, SyncAction.write qd],
          ["Upserted " ++ qd ++ " into " ++ collection],
          Except.ok (dinsert store qd (mkDoc qd ts g s))⟩

/-- A well-formed `by_date` dict: keys are distinct and every entry is
stored under the date key derived from its own row. -/
def entriesOk (m : List (String × JVal)) : Prop :=
  (m.map Prod.fst).Nodup ∧ ∀ p ∈ m, rowKey p.2 = some p.1

/-- The spec's reading of the `timestamp` field: epoch milliseconds of
the quote date at UTC midnight (day count since 1970-01-01 times
86 400 000). -/
def specEpochMillis (y m d : ℕ) : ℤ :=
  daysFromCivil y m d * 86400000

/-- The spec's reading of "rounded to 4 decimal places": an integer
multiple of `1/10000` within half a unit in the last place of the
original value. -/
def roundsTo4dp (r x : ℚ) : Prop :=
  (∃ n : ℤ, r * 10000 = (n : ℚ)) ∧ |r - x| ≤ 1 / 20000

/-- Looking up the key just assigned returns the assigned value. -/
theorem dget_dinsert_self {α : Type} (m : List (String × α)) (k : String) (v : α) :
    dget k (dinsert m k v) = some v := by
  induction m with
  | nil => simp [dinsert, dget]
  | cons p t ih =>
    obtain ⟨k2, v2⟩ := p
    by_cases h : k2 = k
    · simp [dinsert, dget, h]
    · simp [dinsert, dget, h, ih]

/-- Assignment leaves other keys unchanged. -/
theorem dget_dinsert_ne {α : Type} (m : List (String × α)) (k k2 : String) (v : α)
    (h : k2 ≠ k) : dget k2 (dinsert m k v) = dget k2 m := by
  have hk : ¬ (k = k2) := fun he => h he.symm
  induction m with
  | nil => simp [dinsert, dget, hk]
  | cons p t ih =>
    obtain ⟨k3, v3⟩ := p
    by_cases h3 : k3 = k
    · subst h3
      simp [dinsert, dget, hk]
    · simp [dinsert, dget, h3, ih]

/-- Every entry of a dict after assignment was present before or is the
assigned pair. -/
theorem mem_dinsert {α : Type} (m : List (String × α)) (k : String) (v : α)
    (p : String × α) (hp : p ∈ dinsert m k v) : p ∈ m ∨ p = (k, v) := by
  induction m with
  | nil => simp [dinsert] at hp; simp [hp]
  | cons q t ih =>
    obtain ⟨k2, v2⟩ := q
    by_cases h : k2 = k
    · subst h
      simp only [dinsert, if_pos rfl] at hp
      rcases List.mem_cons.mp hp with h1 | h1
      · exact Or.inr h1
      · exact Or.inl (List.mem_cons_of_mem _ h1)
    · simp only [dinsert, if_neg h] at hp
      rcases List.mem_cons.mp hp with h1 | h1
      · exact Or.inl (List.mem_cons.mpr (Or.inl h1))
      · rcases ih h1 with h2 | h2
        · exact Or.inl (List.mem_cons_of_mem _ h2)
        · exact Or.inr h2

/-- The key list after assignment: unchanged when the key was present,
extended by it at the end otherwise. -/
theorem map_fst_dinsert {α : Type} (m : List (String × α)) (k : String) (v : α) :
    (dinsert m k v).map Prod.fst =
      if k ∈ m.map Prod.fst then m.map Prod.fst else m.map Prod.fst ++ [k] := by
  induction m with
  | nil => simp [dinsert]
  | cons p t ih =>
    obtain ⟨k2, v2⟩ := p
    by_cases h : k2 = k
    · subst h
      simp [dinsert]
    · simp only [dinsert, if_neg h, List.map_cons, ih]
      have hk : ¬ (k = k2) := fun he => h he.symm
      by_cases h2 : k ∈ t.map Prod.fst
      · simp [h2, List.mem_cons, hk]
      · simp [h2, List.mem_cons, hk]

/-- Assignment preserves distinctness of keys. -/
theorem nodup_fst_dinsert {α : Type} (m : List (String × α)) (k : String) (v : α)
    (hm : (m.map Prod.fst).Nodup) : ((dinsert m k v).map Prod.fst).Nodup := by
  rw [map_fst_dinsert]
  by_cases h : k ∈ m.map Prod.fst
  · simpa [h] using hm
  · simp only [h, if_false]
    exact List.Nodup.append hm (List.nodup_singleton k) (by simpa using h)

/-- Assignment under a row's own derived key preserves `entriesOk`. -/
theorem entriesOk_dinsert (m : List (String × JVal)) (k : String) (v : JVal)
    (hm : entriesOk m) (hv : rowKey v = some k) : entriesOk (dinsert m k v) := by
  refine ⟨nodup_fst_dinsert m k v hm.1, ?_⟩
  intro p hp
  rcases mem_dinsert m k v p hp with h | h
  · exact hm.2 p h
  · rw [h]; exact hv

/-- Indexing a row list into a dict starting from any accumulator: a
queried date resolves to the last input row carrying it, else to the
accumulator (Python dict assignment is last-write-wins). -/
theorem dget_foldl_byDateStep (rows : List JVal) (m : List (String × JVal)) (d : String) :
    dget d (List.foldl byDateStep m rows) =
      match (rows.filter (fun r => decide (rowKey r = some d))).getLast? with
      | some r => some r
      | none => dget d m := by
  induction rows generalizing m with
  | nil => simp
  | cons r rows ih =>
    rw [List.foldl_cons, ih (byDateStep m r)]
    by_cases hd : rowKey r = some d
    · have hstep : byDateStep m r = dinsert m d r := by
        simp [byDateStep, hd]
      rw [List.filter_cons_of_pos (by simp [hd]), List.getLast?_cons]
      cases hlast : (rows.filter (fun r => decide (rowKey r = some d))).getLast? with
      | some x => simp
      | none => simp [hstep, dget_dinsert_self]
    · rw [List.filter_cons_of_neg (by simp [hd])]
      cases hlast : (rows.filter (fun r => decide (rowKey r = some d))).getLast? with
      | some x => simp
      | none =>
        simp only
        cases hk : rowKey r with
        | none => simp [byDateStep, hk]
        | some d2 =>
          have hne : d ≠ d2 := fun he => hd (by rw [hk, he])
          simp [byDateStep, hk, dget_dinsert_ne m d2 d r hne]

/-- The `by_date` dict resolves a date to the last loaded row carrying it. -/
theorem dget_byDate (rows : List JVal) (d : String) :
    dget d (byDate rows) =
      (rows.filter (fun r => decide (rowKey r = some d))).getLast? := by
  rw [byDate, dget_foldl_byDateStep]
  cases (rows.filter (fun r => decide (rowKey r = some d))).getLast? <;> simp [dget]

/-- Indexing preserves dict well-formedness. -/
theorem entriesOk_foldl_byDateStep (rows : List JVal) (m : List (String × JVal))
    (hm : entriesOk m) : entriesOk (List.foldl byDateStep m rows) := by
  induction rows generalizing m with
  | nil => simpa using hm
  | cons r rows ih =>
    rw [List.foldl_cons]
    refine ih (byDateStep m r) ?_
    cases hk : rowKey r with
    | none => simpa [byDateStep, hk] using hm
    | some d => simpa [byDateStep, hk] using entriesOk_dinsert m d r hm hk

/-- The `by_date` dict is well-formed. -/
theorem entriesOk_byDate (rows : List JVal) : entriesOk (byDate rows) :=
  entriesOk_foldl_byDateStep rows [] ⟨List.nodup_nil, by simp⟩

/-- Rows stored while indexing come from the accumulator or the input:
the loop never fabricates or alters a record. -/
theorem mem_foldl_byDateStep (rows : List JVal) (m : List (String × JVal))
    (p : String × JVal) (hp : p ∈ List.foldl byDateStep m rows) :
    p ∈ m ∨ p.2 ∈ rows := by
  induction rows generalizing m with
  | nil => exact Or.inl (by simpa using hp)
  | cons r rows ih =>
    rw [List.foldl_cons] at hp
    rcases ih (byDateStep m r) hp with h | h
    · cases hk : rowKey r with
      | none =>
        rw [byDateStep, hk] at h
        exact Or.inl h
      | some d =>
        rw [byDateStep, hk] at h
        rcases mem_dinsert m d r p h with h2 | h2
        · exact Or.inl h2
        · right
          rw [h2]
          exact List.mem_cons_self _ _
    · exact Or.inr (List.mem_cons_of_mem _ h)

/-- In a well-formed dict, filtering the values by a date key yields
exactly the looked-up entry (or nothing). -/
theorem values_filter_eq (m : List (String × JVal)) (d : String) (hm : entriesOk m) :
    (m.map Prod.snd).filter (fun r => decide (rowKey r = some d)) =
      (dget d m).elim [] (fun r => [r]) := by
  induction m with
  | nil => simp [dget]
  | cons p t ih =>
    obtain ⟨k, v⟩ := p
    obtain ⟨hnd, hco⟩ := hm
    simp only [List.map_cons, List.nodup_cons] at hnd
    have hkv : rowKey v = some k := hco (k, v) (List.mem_cons_self _ _)
    have hcot : ∀ q ∈ t, rowKey q.2 = some q.1 := fun q hq => hco q (List.mem_cons_of_mem _ hq)
    have iht := ih ⟨hnd.2, hcot⟩
    by_cases h : k = d
    · subst h
      have hnone : (t.map Prod.snd).filter (fun r => decide (rowKey r = some k)) = [] := by
        rw [List.filter_eq_nil_iff]
        intro r hr
        rcases List.mem_map.mp hr with ⟨q, hq, hqr⟩
        have hq1 : rowKey r = some q.1 := by rw [← hqr]; exact hcot q hq
        simp only [decide_eq_true_eq, hq1]
        intro hcontra
        have hqk : q.1 = k := Option.some.inj hcontra
        exact hnd.1 (hqk ▸ List.mem_map_of_mem Prod.fst hq)
      simp [List.filter_cons, hkv, dget, hnone]
    · have hne : ¬ (rowKey v = some d) := by
        rw [hkv]
        intro hc
        exact h (Option.some.inj hc)
      simp [List.filter_cons, hne, dget, h, iht]

/-- Today's record is keyed (by `rowKey`) under the quote date itself,
for any whitespace-free nonempty quote date (as `strftime("%Y-%m-%d")`
always produces). -/
theorem rowKey_todayRecord (qd : String) (ts : ℤ) (g s : ℚ)
    (hq : pyStrip qd = qd) (hne : qd ≠ "") :
    rowKey (todayRecord qd ts g s) = some qd := by
  simp [rowKey, todayRecord, dget, pyStr, hq, hne]

/-- The comparison used by the final sort is transitive. -/
theorem rowLe_trans (a b c : JVal) (h1 : rowLe a b = true) (h2 : rowLe b c = true) :
    rowLe a c = true := by
  simp only [rowLe, decide_eq_true_eq] at h1 h2 ⊢
  exact le_trans h1 h2

/-- The comparison used by the final sort is total. -/
theorem rowLe_total (a b : JVal) : (rowLe a b || rowLe b a) = true := by
  simp only [rowLe, Bool.or_eq_true, decide_eq_true_eq]
  exact le_total (sortKeyStr a) (sortKeyStr b)

/-- Central description of the merged output, per date key: the written
list holds today's record under the quote date, and under every other
date exactly the last loaded row carrying it (nothing else). -/
theorem mergeHistory_filter (data : List JVal) (qd : String) (ts : ℤ) (g s : ℚ)
    (d : String) (hq : pyStrip qd = qd) (hne : qd ≠ "") :
    (mergeHistory data qd ts g s).filter (fun r => decide (rowKey r = some d)) =
      if d = qd then [todayRecord qd ts g s]
      else ((data.filter (fun r => decide (rowKey r = some d))).getLast?).elim []
        (fun r => [r]) := by
  have hok : entriesOk (dinsert (byDate data) qd (todayRecord qd ts g s)) :=
    entriesOk_dinsert _ _ _ (entriesOk_byDate data) (rowKey_todayRecord qd ts g s hq hne)
  have hperm :
      List.Perm
        ((mergeHistory data qd ts g s).filter (fun r => decide (rowKey r = some d)))
        (((dinsert (byDate data) qd (todayRecord qd ts g s)).map Prod.snd).filter
          (fun r => decide (rowKey r = some d))) :=
    List.Perm.filter _ (List.mergeSort_perm _ _)
  rw [values_filter_eq _ d hok] at hperm
  by_cases h : d = qd
  · subst h
    rw [dget_dinsert_self] at hperm
    simp only [Option.elim] at hperm
    rw [if_pos rfl]
    exact List.perm_singleton.mp hperm
  · rw [dget_dinsert_ne _ qd d _ h, dget_byDate] at hperm
    rw [if_neg h]
    cases hlast : (data.filter (fun r => decide (rowKey r = some d))).getLast? with
    | none =>
      rw [hlast] at hperm
      simpa using hperm.eq_nil
    | some r =>
      rw [hlast] at hperm
      exact List.perm_singleton.mp hperm

/-- C1: price extraction over a JSON object scans the ordered candidate
key list and returns the first value convertible to a float
(`findSome?` over the keys); `fetch_spot_price` returns exactly the
extracted value when some recognized key holds a convertible value, and
fails with the parsing `ValueError` exactly when no candidate key is
present or convertible. -/
theorem extraction_first_convertible :
    (∀ (fields : List (String × JVal)) (keys : List String),
      extractNumber fields keys = keys.findSome? (fun k => (dget k fields).bind pyFloat)) ∧
    (∀ (fields : List (String × JVal)) (q : ℚ),
      fetchSpotPriceOf fields = Except.ok q ↔ extractNumber fields spotPriceKeys = some q) ∧
    (∀ fields : List (String × JVal),
      fetchSpotPriceOf fields = Except.error "Could not parse price" ↔
        extractNumber fields spotPriceKeys = none) ∧
    (∀ (fields : List (String × JVal)) (k : String) (v : JVal) (q : ℚ),
      k ∈ spotPriceKeys → dget k fields = some v → pyFloat v = some q →
      ∃ p, fetchSpotPriceOf fields = Except.ok p) := by
  have hmain : ∀ (fields : List (String × JVal)) (keys : List String),
      extractNumber fields keys = keys.findSome? (fun k => (dget k fields).bind pyFloat) := by
    intro fields keys
    induction keys with
    | nil => rfl
    | cons k ks ih =>
      simp only [extractNumber, List.findSome?_cons]
      cases hd : dget k fields with
      | none => simpa using ih
      | some v =>
        cases hpv : pyFloat v with
        | none => simp [hpv, ih]
        | some q => simp [hpv]
  refine ⟨hmain, ?_, ?_, ?_⟩
  · intro fields q
    cases hx : extractNumber fields spotPriceKeys with
    | some p => simp [fetchSpotPriceOf, hx]
    | none => simp [fetchSpotPriceOf, hx]
  · intro fields
    cases hx : extractNumber fields spotPriceKeys with
    | some p => simp [fetchSpotPriceOf, hx]
    | none => simp [fetchSpotPriceOf, hx]
  · intro fields k v q hk hv hq
    cases hx : extractNumber fields spotPriceKeys with
    | some p =>
      refine ⟨p, ?_⟩
      unfold fetchSpotPriceOf
      rw [hx]
    | none =>
      rw [hmain] at hx
      have h2 : pyFloat v = none := by
        have h3 := (List.findSome?_eq_none_iff.mp hx) k hk
        rw [hv] at h3
        exact h3
      rw [hq] at h2
      exact Option.noConfusion h2

/-- Witness for C1 at a concrete payload: `{"price": "x", "gold": 5}`
extracts `5.0` (the string is skipped, the first convertible candidate
wins). -/
theorem extraction_first_convertible_witness :
    ∃ p, fetchSpotPriceOf [("price", JVal.str "x"), ("gold", JVal.num 5)] = Except.ok p :=
  extraction_first_convertible.2.2.2 [("price", JVal.str "x"), ("gold", JVal.num 5)]
    "gold" (JVal.num 5) 5 (by decide) (by decide) rfl

/-- C2: the database sync's market gate, over every New York
weekday/hour, reports closed exactly on the weekend window (Friday from
17:00, all Saturday, Sunday before 18:00 — the hours inside
"Friday 17:00 through Sunday 18:00") and on the Monday–Thursday 17:00
maintenance hour; in particular any Saturday hour is closed, Monday
17:xx (hour 17, so 17:30) is closed, and Tuesday 10:00 is open.
Weekdays are Python's `Mon=0 .. Sun=6`. -/
theorem marketGate_closed_iff :
    (∀ w, w < 7 → ∀ h, h < 24 →
      (shouldSync w h = false ↔
        ((w = 4 ∧ 17 ≤ h) ∨ w = 5 ∨ (w = 6 ∧ h < 18) ∨ (w ≤ 3 ∧ h = 17)))) ∧
    (∀ h, h < 24 → shouldSync 5 h = false) ∧
    shouldSync 0 17 = false ∧ shouldSync 1 10 = true := by
  refine ⟨by decide, by decide, by decide, by decide⟩

/-- Witness for C2: Saturday 03:00 is closed (via the iff) and Tuesday
10:00 is open. -/
theorem marketGate_closed_iff_witness :
    shouldSync 5 3 = false ∧ shouldSync 1 10 = true :=
  ⟨(marketGate_closed_iff.1 5 (by decide) 3 (by decide)).mpr (Or.inr (Or.inl rfl)),
    marketGate_closed_iff.2.2.2⟩

/-- C6: the file-based job starts from an empty store when the history
file is absent, loads the array when present, and dies with the
`ValueError` when the file's JSON is anything other than a list. -/
theorem loadStore_spec :
    loadStore none = Except.ok [] ∧
    (∀ rows, loadStore (some (JVal.arr rows)) = Except.ok rows) ∧
    (∀ j : JVal, (∀ rows, j ≠ JVal.arr rows) →
      loadStore (some j) = Except.error "history.json must contain a JSON array") := by
  refine ⟨rfl, fun rows => rfl, ?_⟩
  intro j hj
  cases j with
  | arr rows => exact absurd rfl (hj rows)
  | null => rfl
  | bool b => rfl
  | num q => rfl
  | str s => rfl
  | obj f => rfl

/-- Witness for C6: a JSON object at the top level is rejected. -/
theorem loadStore_spec_witness :
    loadStore (some (JVal.obj [])) = Except.error "history.json must contain a JSON array" :=
  loadStore_spec.2.2 (JVal.obj []) (fun _rows h => JVal.noConfusion h)

/-- C7: when neither a gold nor a silver value can be extracted from a
combined-endpoint payload, `parse_payload` raises, and the sync run
performs only the fetch — no write — and dies with that error, leaving
the store untouched. -/
theorem payload_missing_both_fails :
    (∀ (uy um ud : ℕ) (fields : List (String × JVal)),
      extractNumber fields payloadGoldKeys = none →
      extractNumber fields payloadSilverKeys = none →
      parsePayload uy um ud fields = Except.error "API payload missing gold/silver values") ∧
    (∀ ny w h utc gR sR coll store (fields : List (String × JVal)),
      shouldSync w h = true →
      extractNumber fields payloadGoldKeys = none →
      extractNumber fields payloadSilverKeys = none →
      dbMain ny w h utc true (JVal.obj fields) gR sR coll store =
        ⟨[SyncAction.fetch], [], Except.error "API payload missing gold/silver values"⟩) := by
  have h1 : ∀ (uy um ud : ℕ) (fields : List (String × JVal)),
      extractNumber fields payloadGoldKeys = none →
      extractNumber fields payloadSilverKeys = none →
      parsePayload uy um ud fields = Except.error "API payload missing gold/silver values" := by
    intro uy um ud fields hg hs
    simp [parsePayload, hg, hs]
  refine ⟨h1, ?_⟩
  intro ny w h utc gR sR coll store fields hopen hg hs
  simp [dbMain, hopen, h1 utc.1 utc.2.1 utc.2.2 fields hg hs]

/-- Witness for C7 at a concrete empty-of-prices payload `{"foo": 1}`. -/
theorem payload_missing_both_fails_witness :
    dbMain (2024, 3, 7) 1 10 (2024, 3, 7) true (JVal.obj [("foo", JVal.num 1)])
        JVal.null JVal.null "metals_daily_usd" [] =
      ⟨[SyncAction.fetch], [], Except.error "API payload missing gold/silver values"⟩ :=
  payload_missing_both_fails.2 (2024, 3, 7) 1 10 (2024, 3, 7) JVal.null JVal.null
    "metals_daily_usd" [] [("foo", JVal.num 1)] (by decide) (by decide) (by decide)

/-- C8: whenever the gate reports closed the sync performs no action at
all — no fetch, no write — leaves the store unchanged and reports the
skipped date; whenever it reports open, the sync proceeds (a fetch is
performed). -/
theorem gate_closed_no_write :
    (∀ ny w h utc apiUrlSet cR gR sR coll store,
      shouldSync w h = false →
      dbMain ny w h utc apiUrlSet cR gR sR coll store =
        ⟨[], ["Market closed/maintenance in NY. Skip sync for "
              ++ fmtDate ny.1 ny.2.1 ny.2.2 ++ "."],
          Except.ok store⟩) ∧
    (∀ ny w h utc apiUrlSet cR gR sR coll store,
      shouldSync w h = true →
      SyncAction.fetch ∈ (dbMain ny w h utc apiUrlSet cR gR sR coll store).actions) := by
  constructor
  · intro ny w h utc apiUrlSet cR gR sR coll store hclosed
    simp [dbMain, hclosed]
  · intro ny w h utc apiUrlSet cR gR sR coll store hopen
    cases apiUrlSet with
    | false =>
      cases hg : fetchSpotPrice gR with
      | error e => simp [dbMain, hopen, hg]
      | ok g =>
        cases hs : fetchSpotPrice sR with
        | error e => simp [dbMain, hopen, hg, hs]
        | ok s => simp [dbMain, hopen, hg, hs]
    | true =>
      cases cR with
      | obj fields =>
        cases hp : parsePayload utc.1 utc.2.1 utc.2.2 fields with
        | ok p => simp [dbMain, hopen, hp]
        | error e => simp [dbMain, hopen, hp]
      | null => simp [dbMain, hopen]
      | bool b => simp [dbMain, hopen]
      | num q => simp [dbMain, hopen]
      | str s2 => simp [dbMain, hopen]
      | arr l => simp [dbMain, hopen]

/-- Witness for C8: Saturday 03:00 skips and changes nothing. -/
theorem gate_closed_no_write_witness :
    dbMain (2024, 3, 9) 5 3 (2024, 3, 9) true JVal.null JVal.null JVal.null
        "metals_daily_usd" [] =
      ⟨[], ["Market closed/maintenance in NY. Skip sync for 2024-03-09."], Except.ok []⟩ := by
  have h := gate_closed_no_write.1 (2024, 3, 9) 5 3 (2024, 3, 9) true JVal.null JVal.null
    JVal.null "metals_daily_usd" [] (by decide)
  rw [h]
  rfl

/-- C10: on the combined-endpoint path, whatever date (and derived
timestamp) `parse_payload` produced from the payload is discarded: the
upserted document and its key carry the gate's New York date and its
UTC-midnight timestamp, with only the payload's gold/silver values kept.
The written result does not depend on `p.date` or `p.ts` at all. -/
theorem combined_date_discarded :
    ∀ ny w h utc cR gR sR coll store (fields : List (String × JVal)) (p : PricePayload),
      shouldSync w h = true →
      cR = JVal.obj fields →
      parsePayload utc.1 utc.2.1 utc.2.2 fields = Except.ok p →
      (mkDoc (fmtDate ny.1 ny.2.1 ny.2.2) (epochSecs ny.1 ny.2.1 ny.2.2)
          p.gold_oz p.silver_oz).date = fmtDate ny.1 ny.2.1 ny.2.2 ∧
      (mkDoc (fmtDate ny.1 ny.2.1 ny.2.2) (epochSecs ny.1 ny.2.1 ny.2.2)
          p.gold_oz p.silver_oz).ts = epochSecs ny.1 ny.2.1 ny.2.2 ∧
      dbMain ny w h utc true cR gR sR coll store =
        ⟨[SyncAction.fetch, SyncAction.write (fmtDate ny.1 ny.2.1 ny.2.2)],
          ["Upserted " ++ fmtDate ny.1 ny.2.1 ny.2.2 ++ " into " ++ coll],
          Except.ok (dinsert store (fmtDate ny.1 ny.2.1 ny.2.2)
            (mkDoc (fmtDate ny.1 ny.2.1 ny.2.2) (epochSecs ny.1 ny.2.1 ny.2.2)
              p.gold_oz p.silver_oz))⟩ := by
  intro ny w h utc cR gR sR coll store fields p hopen hcr hp
  subst hcr
  refine ⟨rfl, rfl, ?_⟩
  simp [dbMain, hopen, hp, mkDoc]

/-- Witness for C10: a payload dated `1999-01-01` is upserted under the
gate's date `2024-03-07`. -/
theorem combined_date_discarded_witness :
    dbMain (2024, 3, 7) 1 10 (2024, 3, 7) true
        (JVal.obj [("gold", JVal.num 2000), ("silver", JVal.num 25),
          ("date", JVal.str "1999-01-01")])
        JVal.null JVal.null "metals_daily_usd" [] =
      ⟨[SyncAction.fetch, SyncAction.write "2024-03-07"],
        ["Upserted 2024-03-07 into metals_daily_usd"],
        Except.ok [("2024-03-07",
          mkDoc "2024-03-07" (epochSecs 2024 3 7) 2000 25)]⟩ := by
  have h := (combined_date_discarded (2024, 3, 7) 1 10 (2024, 3, 7)
    (JVal.obj [("gold", JVal.num 2000), ("silver", JVal.num 25),
      ("date", JVal.str "1999-01-01")])
    JVal.null JVal.null "metals_daily_usd" []
    [("gold", JVal.num 2000), ("silver", JVal.num 25), ("date", JVal.str "1999-01-01")]
    ⟨"1999-01-01", epochSecs 1999 1 1, 2000, 25⟩ (by decide) rfl rfl).2.2
  rw [h]
  rfl

/-- C3: the list the file-based merge writes is sorted ascending by the
raw `date` field of its records (the precondition says Python's `sorted`
completes: every row's `date` is a string or absent — otherwise the run
dies in `sorted` and writes nothing). -/
theorem mergeHistory_sorted :
    ∀ (data : List JVal) (qd : String) (ts : ℤ) (g s : ℚ),
      storeDatesOk data = true →
      (mergeHistory data qd ts g s).Pairwise (fun a b => sortKeyStr a ≤ sortKeyStr b) := by
  intro data qd ts g s _
  have h := @List.sorted_mergeSort JVal rowLe rowLe_trans rowLe_total
    ((dinsert (byDate data) qd (todayRecord qd ts g s)).map Prod.snd)
  unfold mergeHistory
  exact h.imp (fun hab => by simpa [rowLe] using hab)

/-- Witness for C3 at a two-row store. -/
theorem mergeHistory_sorted_witness :
    (mergeHistory [JVal.obj [("date", JVal.str "2024-03-08")]] "2024-03-07" 0 1 2).Pairwise
      (fun a b => sortKeyStr a ≤ sortKeyStr b) :=
  mergeHistory_sorted [JVal.obj [("date", JVal.str "2024-03-08")]] "2024-03-07" 0 1 2
    (by decide)

/-- C4: the merge is an idempotent upsert keyed by date — the output
holds at most one record per date key; merging twice for the same quote
date leaves exactly today's record with the latest values under that
date; and any other date resolves to the last input row carrying it
(last-write-wins).  The hypotheses on `qd` hold of every
`strftime("%Y-%m-%d")` output. -/
theorem mergeHistory_upsert :
    (∀ (data : List JVal) (qd : String) (ts : ℤ) (g s : ℚ) (d : String),
      pyStrip qd = qd → qd ≠ "" →
      (mergeHistory data qd ts g s).countP (fun r => decide (rowKey r = some d)) ≤ 1) ∧
    (∀ (data : List JVal) (qd : String) (ts1 : ℤ) (g1 s1 : ℚ) (ts2 : ℤ) (g2 s2 : ℚ),
      pyStrip qd = qd → qd ≠ "" →
      (mergeHistory (mergeHistory data qd ts1 g1 s1) qd ts2 g2 s2).filter
          (fun r => decide (rowKey r = some qd)) = [todayRecord qd ts2 g2 s2]) ∧
    (∀ (data : List JVal) (qd : String) (ts : ℤ) (g s : ℚ) (d : String),
      pyStrip qd = qd → qd ≠ "" → d ≠ qd →
      (mergeHistory data qd ts g s).filter (fun r => decide (rowKey r = some d)) =
        ((data.filter (fun r => decide (rowKey r = some d))).getLast?).elim []
          (fun r => [r])) := by
  refine ⟨?_, ?_, ?_⟩
  · intro data qd ts g s d hq hne
    rw [List.countP_eq_length_filter, mergeHistory_filter data qd ts g s d hq hne]
    by_cases h : d = qd
    · simp [h]
    · rw [if_neg h]
      cases (data.filter (fun r => decide (rowKey r = some d))).getLast? <;> simp
  · intro data qd ts1 g1 s1 ts2 g2 s2 hq hne
    rw [mergeHistory_filter _ qd ts2 g2 s2 qd hq hne, if_pos rfl]
  · intro data qd ts g s d hq hne hd
    rw [mergeHistory_filter data qd ts g s d hq hne, if_neg hd]

/-- Witness for C4: merging twice for `2024-03-07` leaves exactly one
record for that date, carrying the second run's values. -/
theorem mergeHistory_upsert_witness :
    (mergeHistory (mergeHistory [] "2024-03-07" 0 1 2) "2024-03-07" 9 3 4).filter
        (fun r => decide (rowKey r = some "2024-03-07")) = [todayRecord "2024-03-07" 9 3 4] :=
  mergeHistory_upsert.2.1 [] "2024-03-07" 0 1 2 9 3 4 (by decide) (by decide)

/-- C5 counterexample: the merge can drop a record whose date differs
from today's.  With two input rows both dated `2024-01-01` and quote
date `2024-03-07`, the earlier row is gone from the output (last write
wins), refuting "every record whose date differs from today's date
appears unchanged in the output". -/
theorem mergeHistory_drops_superseded :
    rowKey (JVal.obj [("date", JVal.str "2024-01-01"), ("gold_oz", JVal.num 1)]) =
        some "2024-01-01" ∧
    ("2024-01-01" : String) ≠ "2024-03-07" ∧
    JVal.obj [("date", JVal.str "2024-01-01"), ("gold_oz", JVal.num 1)] ∈
      ([JVal.obj [("date", JVal.str "2024-01-01"), ("gold_oz", JVal.num 1)],
        JVal.obj [("date", JVal.str "2024-01-01"), ("gold_oz", JVal.num 2)]] : List JVal) ∧
    JVal.obj [("date", JVal.str "2024-01-01"), ("gold_oz", JVal.num 1)] ∉
      mergeHistory
        [JVal.obj [("date", JVal.str "2024-01-01"), ("gold_oz", JVal.num 1)],
          JVal.obj [("date", JVal.str "2024-01-01"), ("gold_oz", JVal.num 2)]]
        "2024-03-07" 0 1 2 := by
  refine ⟨by decide, by decide, by decide, ?_⟩
  intro hmem
  have hfil := mergeHistory_filter
    [JVal.obj [("date", JVal.str "2024-01-01"), ("gold_oz", JVal.num 1)],
      JVal.obj [("date", JVal.str "2024-01-01"), ("gold_oz", JVal.num 2)]]
    "2024-03-07" 0 1 2 "2024-01-01" (by decide) (by decide)
  rw [if_neg (by decide)] at hfil
  have hlast :
      (([JVal.obj [("date", JVal.str "2024-01-01"), ("gold_oz", JVal.num 1)],
        JVal.obj [("date", JVal.str "2024-01-01"), ("gold_oz", JVal.num 2)]] : List JVal).filter
          (fun r => decide (rowKey r = some "2024-01-01"))).getLast? =
        some (JVal.obj [("date", JVal.str "2024-01-01"), ("gold_oz", JVal.num 2)]) := by
    decide
  rw [hlast] at hfil
  have hin : JVal.obj [("date", JVal.str "2024-01-01"), ("gold_oz", JVal.num 1)] ∈
      (mergeHistory
        [JVal.obj [("date", JVal.str "2024-01-01"), ("gold_oz", JVal.num 1)],
          JVal.obj [("date", JVal.str "2024-01-01"), ("gold_oz", JVal.num 2)]]
        "2024-03-07" 0 1 2).filter (fun r => decide (rowKey r = some "2024-01-01")) :=
    List.mem_filter.mpr ⟨hmem, by decide⟩
  rw [hfil] at hin
  have : JVal.obj [("date", JVal.str "2024-01-01"), ("gold_oz", JVal.num 1)] =
      JVal.obj [("date", JVal.str "2024-01-01"), ("gold_oz", JVal.num 2)] :=
    List.mem_singleton.mp hin
  exact absurd this (by decide)

/-- C5 (amended): the merge deletes nothing that survives indexing —
every row that is the last input row carrying its (nonempty, non-today)
date key appears unchanged in the output, and every output row is either
today's record or one of the input rows unchanged (rows that are not
dicts, have no usable date, or are superseded by a later same-date row
are dropped by the indexing step, as the spec's own last-write-wins
clause requires). -/
theorem mergeHistory_preserves_rows :
    (∀ (data : List JVal) (qd : String) (ts : ℤ) (g s : ℚ) (d : String) (r : JVal),
      pyStrip qd = qd → qd ≠ "" → d ≠ qd →
      (data.filter (fun x => decide (rowKey x = some d))).getLast? = some r →
      r ∈ mergeHistory data qd ts g s) ∧
    (∀ (data : List JVal) (qd : String) (ts : ℤ) (g s : ℚ) (x : JVal),
      x ∈ mergeHistory data qd ts g s → x = todayRecord qd ts g s ∨ x ∈ data) := by
  constructor
  · intro data qd ts g s d r hq hne hd hlast
    have hfil := mergeHistory_filter data qd ts g s d hq hne
    rw [if_neg hd, hlast] at hfil
    refine List.mem_of_mem_filter (p := fun x => decide (rowKey x = some d)) ?_
    rw [hfil]
    exact List.mem_singleton.mpr rfl
  · intro data qd ts g s x hx
    have hx2 : x ∈ (dinsert (byDate data) qd (todayRecord qd ts g s)).map Prod.snd :=
      (List.mergeSort_perm _ rowLe).mem_iff.mp hx
    rcases List.mem_map.mp hx2 with ⟨p, hp, hpx⟩
    rcases mem_dinsert _ _ _ p hp with h1 | h1
    · rcases mem_foldl_byDateStep data [] p h1 with h2 | h2
      · cases h2
      · exact Or.inr (hpx ▸ h2)
    · left
      rw [← hpx, h1]

/-- Witness for C5 (amended) at a one-row store: the existing
`2024-01-01` row survives a merge for `2024-03-07` unchanged. -/
theorem mergeHistory_preserves_rows_witness :
    JVal.obj [("date", JVal.str "2024-01-01")] ∈
      mergeHistory [JVal.obj [("date", JVal.str "2024-01-01")]] "2024-03-07" 0 1 2 :=
  mergeHistory_preserves_rows.1 [JVal.obj [("date", JVal.str "2024-01-01")]]
    "2024-03-07" 0 1 2 "2024-01-01" (JVal.obj [("date", JVal.str "2024-01-01")])
    (by decide) (by decide) (by decide) (by decide)

/-- Round-half-to-even lands within half a unit of its argument. -/
theorem abs_pyRoundHalfEven_sub (x : ℚ) : |(pyRoundHalfEven x : ℚ) - x| ≤ 1 / 2 := by
  have h1 : ((Int.floor x : ℤ) : ℚ) ≤ x := Int.floor_le x
  have h2 : x < ((Int.floor x : ℤ) : ℚ) + 1 := Int.lt_floor_add_one x
  unfold pyRoundHalfEven
  split_ifs with hlt hgt hev <;> rw [abs_le] <;> constructor <;> push_cast at * <;> linarith

/-- Python `round(x, 4)` satisfies the spec's 4-decimal-places reading. -/
theorem roundsTo4dp_pyRound4 (x : ℚ) : roundsTo4dp (pyRound4 x) x := by
  constructor
  · refine ⟨pyRoundHalfEven (x * 10000), ?_⟩
    unfold pyRound4
    field_simp
  · have h := abs_pyRoundHalfEven_sub (x * 10000)
    have heq : pyRound4 x - x = ((pyRoundHalfEven (x * 10000) : ℚ) - x * 10000) / 10000 := by
      unfold pyRound4
      ring
    rw [heq, abs_div]
    have h4 : |(10000 : ℚ)| = 10000 := by norm_num
    rw [h4]
    linarith

/-- C9: the record the file-based job writes for the quote date carries
`gold_oz`/`silver_oz` equal to the fetched prices rounded to 4 decimal
places (integer multiples of 1/10000 within half an ulp), and a
`timestamp` equal to the epoch milliseconds of the quote date at UTC
midnight. -/
theorem historyRecord_fields :
    ∀ (y m d : ℕ) (data : List JVal) (g s : ℚ),
      pyStrip (fmtDate y m d) = fmtDate y m d → fmtDate y m d ≠ "" →
      ((mergeHistory data (fmtDate y m d) (pyTimestampMs y m d) g s).filter
          (fun r => decide (rowKey r = some (fmtDate y m d))) =
        [JVal.obj [("date", JVal.str (fmtDate y m d)),
          ("timestamp", JVal.num ((specEpochMillis y m d : ℤ) : ℚ)),
          ("gold_oz", JVal.num (pyRound4 g)), ("silver_oz", JVal.num (pyRound4 s)),
          ("source", JVal.str "daily-sync")]]) ∧
      roundsTo4dp (pyRound4 g) g ∧ roundsTo4dp (pyRound4 s) s := by
  intro y m d data g s hq hne
  refine ⟨?_, roundsTo4dp_pyRound4 g, roundsTo4dp_pyRound4 s⟩
  have h := mergeHistory_filter data (fmtDate y m d) (pyTimestampMs y m d) g s
    (fmtDate y m d) hq hne
  rw [if_pos rfl] at h
  rw [h]
  have hts : ((pyTimestampMs y m d : ℤ) : ℚ) = ((specEpochMillis y m d : ℤ) : ℚ) := by
    unfold pyTimestampMs specEpochMillis epochSecs
    push_cast
    ring
  simp [todayRecord, hts]

/-- Witness for C9 on the date 2024-03-07 with prices 1.23456 and 2. -/
theorem historyRecord_fields_witness :
    ((mergeHistory [] (fmtDate 2024 3 7) (pyTimestampMs 2024 3 7) (123456 / 100000) 2).filter
        (fun r => decide (rowKey r = some (fmtDate 2024 3 7))) =
      [JVal.obj [("date", JVal.str (fmtDate 2024 3 7)),
        ("timestamp", JVal.num ((specEpochMillis 2024 3 7 : ℤ) : ℚ)),
        ("gold_oz", JVal.num (pyRound4 (123456 / 100000))), ("silver_oz", JVal.num (pyRound4 2)),
        ("source", JVal.str "daily-sync")]]) ∧
      roundsTo4dp (pyRound4 (123456 / 100000)) (123456 / 100000) ∧ roundsTo4dp (pyRound4 2) 2 :=
  historyRecord_fields 2024 3 7 [] (123456 / 100000) 2 (by decide) (by decide)
